import Mathlib

set_option maxRecDepth 8000

/- Shallow embedding of agent/play_with_llm.py.

   Python str values are modelled as Lean String, and the Python text helpers
   (strip, rstrip, lower, splitlines, substring containment, the two regular
   expressions) are modelled over List Char.  Whitespace is the ASCII
   whitespace set that Python uses on ASCII text; the inputs handled by the
   program are ASCII. -/

def pyIsSpace (c : Char) : Bool :=
  c == ' ' || c == '\t' || c == '\n' || c == '\r' || c == '\x0b' || c == '\x0c'

def lstripChars (cs : List Char) : List Char := cs.dropWhile pyIsSpace

def rstripChars (cs : List Char) : List Char := (cs.reverse.dropWhile pyIsSpace).reverse

def stripChars (cs : List Char) : List Char := lstripChars (rstripChars cs)

/- Python s.strip() -/
def pyStrip (s : String) : String := ⟨stripChars s.data⟩

/- Python s.rstrip() -/
def pyRstrip (s : String) : String := ⟨rstripChars s.data⟩

/- Python s.lower() (ASCII) -/
def pyLower (s : String) : String := ⟨s.data.map Char.toLower⟩

/- Python item.rstrip with a dot argument: drop all trailing dots -/
def rstripDots (s : String) : String := ⟨(s.data.reverse.dropWhile (fun c => c == '.')).reverse⟩

def startsWithChars : List Char → List Char → Bool
  | [], _ => true
  | _ :: _, [] => false
  | p :: ps, c :: cs => p == c && startsWithChars ps cs

/- Python substring containment: pat in cs -/
def containsChars : List Char → List Char → Bool
  | [], pat => startsWithChars pat []
  | c :: t, pat => startsWithChars pat (c :: t) || containsChars t pat

/- Python str.splitlines: splits on LF, CR and CRLF, and a trailing line
   terminator produces no extra empty final line. -/
def splitlinesChars : List Char → List Char → List (List Char)
  | [], acc => if acc.isEmpty then [] else [acc.reverse]
  | '\r' :: '\n' :: rest, acc => acc.reverse :: splitlinesChars rest []
  | '\r' :: rest, acc => acc.reverse :: splitlinesChars rest []
  | '\n' :: rest, acc => acc.reverse :: splitlinesChars rest []
  | c :: rest, acc => splitlinesChars rest (c :: acc)

def pySplitlines (s : String) : List String :=
  (splitlinesChars s.data []).map (fun cs => ⟨cs⟩)

/- ---------------------------------------------------------------------
   parse_banner (play_with_llm.py lines 43-58)
   --------------------------------------------------------------------- -/

def digitsVal (ds : List Char) : Nat :=
  ds.foldl (fun a c => a * 10 + (c.toNat - 48)) 0

/- One attempt of the regular expression
   Score: then spaces then digits then spaces then Turns: then spaces then digits
   anchored at the start of cs.  The quantifiers of the pattern are greedy and
   never need backtracking, so a greedy matcher is exact. -/
def matchBannerAt (cs : List Char) : Option (Nat × Nat) :=
  if startsWithChars "Score:".data cs then
    let r2 := (cs.drop 6).dropWhile pyIsSpace
    let d1 := r2.takeWhile Char.isDigit
    if d1.isEmpty then none
    else
      let r3 := (r2.dropWhile Char.isDigit).dropWhile pyIsSpace
      if startsWithChars "Turns:".data r3 then
        let r4 := (r3.drop 6).dropWhile pyIsSpace
        let d2 := r4.takeWhile Char.isDigit
        if d2.isEmpty then none else some (digitsVal d1, digitsVal d2)
      else none
  else none

/- re.search: try the pattern at every position, leftmost match wins. -/
def bannerSearchChars : List Char → Option (Nat × Nat)
  | [] => matchBannerAt []
  | c :: t =>
    match matchBannerAt (c :: t) with
    | some r => some r
    | none => bannerSearchChars t

def bannerSearch (s : String) : Option (Nat × Nat) := bannerSearchChars s.data

/- The loop of parse_banner: location is assigned on the first non-blank line
   (with no status-line exclusion), and score and turns are re-assigned on
   every line the regular expression matches. -/
def parse_banner_loop : List String → Option String → Option Nat → Option Nat →
    String × Option Nat × Option Nat
  | [], loc, sc, tu => (loc.getD "", sc, tu)
  | l :: ls, loc, sc, tu =>
    let s := pyStrip l
    if s = "" then parse_banner_loop ls loc sc tu
    else
      let loc2 := match loc with
        | none => some s
        | some x => some x
      match bannerSearch s with
      | some p => parse_banner_loop ls loc2 (some p.1) (some p.2)
      | none => parse_banner_loop ls loc2 sc tu

def parse_banner (text : String) : String × Option Nat × Option Nat :=
  parse_banner_loop (pySplitlines text) none none none

/- ---------------------------------------------------------------------
   parse_game_state (play_with_llm.py lines 61-118)
   --------------------------------------------------------------------- -/

structure GameState where
  room : Option String
  description : String
  inventory : List String
deriving DecidableEq

def isStatusLine (s : String) : Bool :=
  containsChars s.data "Score:".data || containsChars s.data "Turns:".data

def isInvIntro (s : String) : Bool :=
  let low := pyLower s
  startsWithChars "you are carrying".data low.data ||
    containsChars low.data "you are carrying:".data

/- Python s.split with a colon and maxsplit one, second element, when a colon
   is present. -/
def afterColonChars : List Char → Option (List Char)
  | [] => none
  | ':' :: t => some t
  | _ :: t => afterColonChars t

/- re.split on comma, semicolon, or the word and surrounded by spaces:
   scan left to right, the alternatives never overlap at one position. -/
def splitInvChars : List Char → List Char → List (List Char)
  | [], acc => [acc.reverse]
  | ',' :: t, acc => acc.reverse :: splitInvChars t []
  | ';' :: t, acc => acc.reverse :: splitInvChars t []
  | ' ' :: 'a' :: 'n' :: 'd' :: ' ' :: t, acc => acc.reverse :: splitInvChars t []
  | c :: t, acc => splitInvChars t (c :: acc)

/- Inline inventory after the colon of the introduction line (lines 103-108). -/
def inlineInvItems (s : String) : List String :=
  match afterColonChars s.data with
  | none => []
  | some t =>
    let after := stripChars t
    if after.isEmpty then []
    else
      (splitInvChars after []).filterMap (fun p =>
        let q := stripChars p
        if q.isEmpty then none else some (rstripDots ⟨q⟩))

/- The while loop collecting following non-empty lines as items (lines 110-113). -/
def followingInvItems (rest : List String) : List String :=
  (rest.takeWhile (fun l => pyStrip l != "")).map (fun l => rstripDots (pyStrip l))

/- Description gathering (lines 95-115): stop on a blank line, a status line,
   or an inventory introduction line; on the latter also collect inventory. -/
def gatherDesc : List String → List String × List String
  | [] => ([], [])
  | l :: rest =>
    let s := pyRstrip l
    if pyStrip s = "" then ([], [])
    else if isStatusLine s then ([], [])
    else if isInvIntro s then ([], inlineInvItems s ++ followingInvItems rest)
    else
      let r := gatherDesc rest
      (s :: r.1, r.2)

/- Room title search (lines 81-92): skip blank, status and diagnostic lines. -/
def findRoom : List String → Option (String × List String)
  | [] => none
  | l :: rest =>
    let s := pyStrip l
    if s = "" then findRoom rest
    else if isStatusLine s then findRoom rest
    else if startsWithChars "[".data s.data then findRoom rest
    else some (s, rest)

def joinSpace : List String → String
  | [] => ""
  | [x] => x
  | x :: xs => x ++ " " ++ joinSpace xs

/- join of the non-empty description lines with single spaces, then strip. -/
def joinDesc (ds : List String) : String :=
  pyStrip (joinSpace (ds.filter (fun d => d != "")))

def parse_game_state (text : String) : GameState :=
  if text = "" then { room := none, description := "", inventory := [] }
  else
    let lines := (pySplitlines text).map pyRstrip
    let afterBlanks := lines.dropWhile (fun l => pyStrip l == "")
    match findRoom afterBlanks with
    | some rr =>
      let r := gatherDesc rr.2
      { room := some rr.1, description := joinDesc r.1, inventory := r.2 }
    | none =>
      let r := gatherDesc afterBlanks
      { room := none, description := joinDesc r.1, inventory := r.2 }

/- ---------------------------------------------------------------------
   Specification-side helpers for the banner claims (C2, C10).
   --------------------------------------------------------------------- -/

def optOr {α : Type} : Option α → Option α → Option α
  | some x, _ => some x
  | none, y => y

def lastOpt {α : Type} : List α → Option α
  | [] => none
  | [x] => some x
  | _ :: x :: xs => lastOpt (x :: xs)

/- The first non-blank line, stripped. -/
def firstNonBlank : List String → Option String
  | [] => none
  | l :: ls =>
    let s := pyStrip l
    if s = "" then firstNonBlank ls else some s

/- All matches of the score and turns pattern, one per matching line. -/
def bannerMatches (lines : List String) : List (Nat × Nat) :=
  lines.filterMap (fun l => bannerSearch (pyStrip l))

def bannerCombine (sc tu : Option Nat) (m : Option (Nat × Nat)) :
    Option Nat × Option Nat :=
  match m with
  | some p => (some p.1, some p.2)
  | none => (sc, tu)

/- ---------------------------------------------------------------------
   History buffer (play_with_llm.py lines 239-242, 244, 249, 297):
   history.append(recent) followed by trimming to the last 12 entries,
   and windows taken as history with a negative slice.
   --------------------------------------------------------------------- -/

def historyAppend (bound : Nat) (history : List String) (chunk : String) : List String :=
  let h := history ++ [chunk]
  if h.length > bound then h.drop (h.length - bound) else h

/- A negative slice from the end: the most recent n entries in order. -/
def window (n : Nat) (h : List String) : List String := h.drop (h.length - n)

/- ---------------------------------------------------------------------
   mock_llm_policy (play_with_llm.py lines 143-162): a generator closing
   over a cursor i, yielding responses indexed i mod 5 and incrementing i
   by one per call.
   --------------------------------------------------------------------- -/

def mock_responses : List String := [
  "look\nI want to see the surroundings.",
  "north\nMove toward the house to explore.",
  "take lamp\nPick up the lamp to illuminate dark rooms.",
  "open mailbox\nMaybe there's a letter inside.",
  "south\nReturn toward the southern path."
]

/- One step of the generator: the yielded value and the next cursor. -/
def mockStep (i : Nat) : String × Nat :=
  (mock_responses.getD (i % mock_responses.length) "", i + 1)

/- The outputs of n consecutive calls starting from cursor s. -/
def mockRun : Nat → Nat → List String
  | _, 0 => []
  | s, n + 1 => (mockStep s).1 :: mockRun (mockStep s).2 n

/- ---------------------------------------------------------------------
   call_llm (play_with_llm.py lines 121-140).  The HTTP exchange is
   abstracted as its outcome; the JSON body is a Python-value tree.
   Every exception propagating out of the function is an error value.
   --------------------------------------------------------------------- -/

inductive PyVal
  | vnull
  | vstr (s : String)
  | vnum (n : Int)
  | vlist (xs : List PyVal)
  | vdict (d : List (String × PyVal))

inductive LlmErr
  | requestsExn     -- requests.post raised: network failure
  | httpStatusExn   -- resp.raise_for_status raised: status 400 to 599
  | jsonDecodeExn   -- resp.json raised: unparseable body
  | raised          -- an exception escaping the fallback expression
deriving DecidableEq

inductive HttpResult
  | netFail
  | resp (status : Nat) (body : Option PyVal)  -- none: body not JSON

def dictGet : List (String × PyVal) → String → Option PyVal
  | [], _ => none
  | kv :: rest, key => if kv.1 = key then some kv.2 else dictGet rest key

/- The guarded path choices index zero, message, content.  Any failure along
   the path (wrong shapes included) is caught by the bare except and sends
   the code to the legacy fallback. -/
def tryChoicesPath (data : PyVal) : Option PyVal :=
  match data with
  | .vdict d =>
    match dictGet d "choices" with
    | some (.vlist (c0 :: _)) =>
      match c0 with
      | .vdict cd =>
        match dictGet cd "message" with
        | some (.vdict md) => dictGet md "content"
        | _ => none
      | _ => none
    | _ => none
  | _ => none

/- The fallback data.get of choices with a list default, index zero, then
   .get of text.  dict.get of a missing key returns None: vnull.  All other
   shape mismatches raise out of call_llm. -/
def legacyFallback (data : PyVal) : Except LlmErr PyVal :=
  match data with
  | .vdict d =>
    match (dictGet d "choices").getD (.vlist []) with
    | .vlist [] => .error .raised              -- index error on the empty list
    | .vlist (c0 :: _) =>
      match c0 with
      | .vdict cd => .ok ((dictGet cd "text").getD .vnull)
      | _ => .error .raised                    -- the element has no get method
    | _ => .error .raised                      -- not subscriptable, or a str slice with no get
  | _ => .error .raised                        -- data has no get method

def call_llm (r : HttpResult) : Except LlmErr PyVal :=
  match r with
  | .netFail => .error .requestsExn
  | .resp status body =>
    if 400 ≤ status ∧ status ≤ 599 then .error .httpStatusExn
    else
      match body with
      | none => .error .jsonDecodeExn
      | some data =>
        match tryChoicesPath data with
        | some v => .ok v
        | none => legacyFallback data

def isTextualVal : PyVal → Bool
  | .vstr _ => true
  | _ => false

/- ---------------------------------------------------------------------
   The turn loop of main (play_with_llm.py lines 233-412).

   The environment of a turn (decision source outcome, sendline outcome,
   outcome of the expect on the Score marker or EOF) is a scripted input.
   pexpect semantics modelled: after a successful expect, game.before is
   the text before the match and game.after the matched text; when EOF is
   matched or TIMEOUT is raised, pexpect stores the exception CLASS in
   game.after, and concatenating it to a str raises TypeError.  The only
   exception handled by the loop is pexpect.TIMEOUT around the expect.
   --------------------------------------------------------------------- -/

inductive OracleOutcome
  | exn                            -- call_llm raised; caught at line 263, break
  | ok (response : Option String)  -- returned value; none models Python None

inductive SendOutcome
  | sendOk
  | sendExn                        -- game.sendline raised; caught at line 326, break

inductive BoundaryOutcome
  | markerMatch (pre : String)     -- expect matched the marker; before = pre
  | eofMatch (buffered : String)   -- expect matched EOF; after becomes the EOF class
  | timeoutRaised (buffered : String) -- TIMEOUT raised and caught at line 409

structure TurnEnv where
  oracle : OracleOutcome
  send : SendOutcome
  boundary : BoundaryOutcome

inductive AfterVal
  | text (s : String)              -- game.after is a str (or None, modelled as "")
  | exnClass                       -- game.after is the EOF or TIMEOUT class object
deriving DecidableEq

structure LoopState where
  beforeText : String
  afterVal : AfterVal
  history : List String

inductive Event
  | oracleCalled (turn : Nat)
  | preRecord (turn : Nat)         -- the before_send jsonl record, line 319
  | postRecord (turn : Nat)        -- the after_recv jsonl record, lines 366-399
  | timeoutLogged (turn : Nat)     -- the print at line 410
deriving DecidableEq

inductive RunEnd
  | normal                  -- the for loop exhausted max_turns
  | decisionSourceFailure   -- break at line 265, 278 or 290
  | transportError          -- break at line 329
  | typeErrorCrash          -- uncaught TypeError: str concatenated with a class
deriving DecidableEq

/- Line 235 and line 334: (game.before or two quotes) + (getattr after or
   two quotes).  A class stored in after is truthy and not a str, so the
   concatenation raises TypeError, which no handler catches. -/
def recentOfState (before : String) : AfterVal → Option String
  | .text a => some (before ++ a)
  | .exnClass => none

def firstNonEmptyLineAux : List String → Option String
  | [] => none
  | l :: ls =>
    let t := pyStrip l
    if t = "" then firstNonEmptyLineAux ls else some t

/- Lines 281-286: the first non-empty stripped line of the response. -/
def firstNonEmptyLine (s : String) : Option String :=
  firstNonEmptyLineAux (pySplitlines s)

/- The loop body, fuel = remaining turns of range(1, max_turns + 1). -/
def runLoop (env : Nat → TurnEnv) : Nat → Nat → LoopState → List Event × RunEnd
  | 0, _, _ => ([], .normal)
  | rem + 1, turn, st =>
    match recentOfState st.beforeText st.afterVal with
    | none => ([], .typeErrorCrash)
    | some recentRaw =>
      let recent := pyStrip recentRaw
      let history := if recent ≠ "" then historyAppend 12 st.history recent else st.history
      match (env turn).oracle with
      | .exn => ([.oracleCalled turn], .decisionSourceFailure)
      | .ok r =>
        let response := r.getD ""
        if response = "" then ([.oracleCalled turn], .decisionSourceFailure)
        else
          match firstNonEmptyLine response with
          | none => ([.oracleCalled turn], .decisionSourceFailure)
          | some _cmd =>
            match (env turn).send with
            | .sendExn => ([.oracleCalled turn, .preRecord turn], .transportError)
            | .sendOk =>
              match (env turn).boundary with
              | .markerMatch pre =>
                let next := runLoop env rem (turn + 1) ⟨pre, .text "Score:", history⟩
                (.oracleCalled turn :: .preRecord turn :: .postRecord turn :: next.1, next.2)
              | .eofMatch _buffered =>
                -- line 334 concatenates before with the EOF class: TypeError,
                -- uncaught, so no post record and no clean shutdown.
                ([.oracleCalled turn, .preRecord turn], .typeErrorCrash)
              | .timeoutRaised buffered =>
                let next := runLoop env rem (turn + 1) ⟨buffered, .exnClass, history⟩
                (.oracleCalled turn :: .preRecord turn :: .timeoutLogged turn :: next.1, next.2)

/- Concrete environments used for the settled runs. -/

def envOracleErr : Nat → TurnEnv :=
  fun _ => ⟨.exn, .sendOk, .markerMatch "out"⟩

def envNoCmd : Nat → TurnEnv :=
  fun _ => ⟨.ok (some "\n \n"), .sendOk, .markerMatch "out"⟩

def envTimeout : Nat → TurnEnv :=
  fun _ => ⟨.ok (some "look\nI want to see the surroundings."), .sendOk, .timeoutRaised "partial text"⟩

def envEof : Nat → TurnEnv :=
  fun _ => ⟨.ok (some "look\nI want to see the surroundings."), .sendOk, .eofMatch "You quit the game."⟩

/- A list of char constant used by the C1 statement. -/
def yacChars : List Char := "you are carrying".data

/- The body shape used by the C9 counterexample: a parseable success body
   whose first choice has neither a message path nor a text field. -/
def c9Body : PyVal := PyVal.vdict [("choices", PyVal.vlist [PyVal.vdict []])]

/- =====================================================================
   Supporting lemmas
   ===================================================================== -/

theorem drop_sub_eq_reverse_take {α : Type} (l : List α) (b : Nat) :
    l.drop (l.length - b) = (l.reverse.take b).reverse := by
  induction l generalizing b with
  | nil => simp
  | cons c t ih =>
    by_cases hb : b ≤ t.length
    · have h1 : (c :: t).length - b = (t.length - b) + 1 := by
        simp [List.length_cons]; omega
      have h2 : (c :: t).drop ((t.length - b) + 1) = t.drop (t.length - b) := rfl
      rw [h1, h2, ih, List.reverse_cons, List.take_append_eq_append_take]
      have h3 : b - t.length = 0 := by omega
      simp [List.length_reverse, h3]
    · have h1 : (c :: t).length - b = 0 := by simp [List.length_cons]; omega
      rw [h1, List.drop_zero, List.reverse_cons, List.take_append_eq_append_take]
      rw [List.take_of_length_le (by rw [List.length_reverse]; omega)]
      rw [List.take_of_length_le (by simp; omega)]
      simp

theorem window_eq_reverse_take (b : Nat) (l : List String) :
    window b l = (l.reverse.take b).reverse :=
  drop_sub_eq_reverse_take l b

theorem window_append_window (b : Nat) (x y : List String) :
    window b (window b x ++ y) = window b (x ++ y) := by
  rw [window_eq_reverse_take, window_eq_reverse_take, window_eq_reverse_take]
  rw [List.reverse_append, List.reverse_append, List.reverse_reverse]
  rw [List.take_append_eq_append_take, List.take_append_eq_append_take]
  rw [List.take_take]
  have hmin : min (b - y.reverse.length) b = b - y.reverse.length := by omega
  rw [hmin]

theorem historyAppend_eq_window (b : Nat) (h : List String) (c : String) :
    historyAppend b h c = window b (h ++ [c]) := by
  by_cases hlen : (h ++ [c]).length > b
  · simp only [historyAppend, window, if_pos hlen]
  · simp only [historyAppend, window, if_neg hlen]
    have h0 : (h ++ [c]).length - b = 0 := by omega
    rw [h0, List.drop_zero]

theorem foldl_historyAppend_window (b : Nat) (ys : List String) :
    ∀ x : List String, ys.foldl (historyAppend b) (window b x) = window b (x ++ ys) := by
  induction ys with
  | nil => intro x; simp [window]
  | cons c ys ih =>
    intro x
    rw [List.foldl_cons, historyAppend_eq_window, window_append_window, ih (x ++ [c])]
    simp

theorem foldl_historyAppend_nil (b : Nat) (ys : List String) :
    ys.foldl (historyAppend b) [] = window b ys := by
  have h := foldl_historyAppend_window b ys []
  simpa [window] using h

theorem window_length (n : Nat) (h : List String) :
    (window n h).length = min n h.length := by
  simp only [window, List.length_drop]
  omega

theorem optOr_none_right {α : Type} (o : Option α) : optOr o none = o := by
  cases o <;> rfl

theorem optOr_some_absorb {α : Type} (o : Option α) (x : α) (y : Option α) :
    optOr (optOr o (some x)) y = optOr o (some x) := by
  cases o <;> rfl

theorem lastOpt_nonempty {α : Type} (a : α) (l : List α) :
    ∃ z, lastOpt (a :: l) = some z := by
  induction l generalizing a with
  | nil => exact ⟨a, rfl⟩
  | cons b t ih => exact ih b

theorem bannerCombine_cons (sc tu : Option Nat) (p : Nat × Nat) (M : List (Nat × Nat)) :
    bannerCombine sc tu (lastOpt (p :: M)) = bannerCombine (some p.1) (some p.2) (lastOpt M) := by
  cases M with
  | nil => rfl
  | cons q t =>
    obtain ⟨z, hz⟩ := lastOpt_nonempty q t
    rw [show lastOpt (p :: q :: t) = lastOpt (q :: t) from rfl, hz]
    rfl

theorem matchLoc_eq_optOr (loc : Option String) (s : String) :
    (match loc with
      | none => some s
      | some x => some x) = optOr loc (some s) := by
  cases loc <;> rfl

theorem parse_banner_loop_spec :
    ∀ (ls : List String) (loc : Option String) (sc tu : Option Nat),
      parse_banner_loop ls loc sc tu =
        ((optOr loc (firstNonBlank ls)).getD "",
          bannerCombine sc tu (lastOpt (bannerMatches ls))) := by
  intro ls
  induction ls with
  | nil =>
    intro loc sc tu
    simp [parse_banner_loop, firstNonBlank, bannerMatches, lastOpt, optOr_none_right,
      bannerCombine]
  | cons l ls ih =>
    intro loc sc tu
    by_cases hs : pyStrip l = ""
    · have hsearch : bannerSearch (pyStrip l) = none := by rw [hs]; rfl
      simp only [parse_banner_loop, hs, if_pos rfl, ih, firstNonBlank, bannerMatches,
        List.filterMap_cons, hsearch]
      simp [show bannerSearch "" = none from rfl]
    · cases hsearch : bannerSearch (pyStrip l) with
      | some p =>
        simp only [parse_banner_loop, if_neg hs, matchLoc_eq_optOr, hsearch, ih]
        simp only [firstNonBlank, if_neg hs, optOr_some_absorb]
        simp only [bannerMatches, List.filterMap_cons, hsearch, bannerCombine_cons]
      | none =>
        simp only [parse_banner_loop, if_neg hs, matchLoc_eq_optOr, hsearch, ih]
        simp only [firstNonBlank, if_neg hs, optOr_some_absorb]
        simp only [bannerMatches, List.filterMap_cons, hsearch]

theorem mockRun_getD :
    ∀ (n s i : Nat), i < n →
      (mockRun s n).getD i "" = mock_responses.getD ((s + i) % mock_responses.length) "" := by
  intro n
  induction n with
  | zero => intro s i h; omega
  | succ n ih =>
    intro s i h
    cases i with
    | zero => simp [mockRun, mockStep]
    | succ j =>
      have hj : j < n := by omega
      have h2 := ih (s + 1) j hj
      have heq : s + 1 + j = s + (j + 1) := by omega
      rw [heq] at h2
      simp only [mockRun, List.getD_cons_succ, mockStep] at h2 ⊢
      exact h2

theorem rstripChars_idem (cs : List Char) : rstripChars (rstripChars cs) = rstripChars cs := by
  simp [rstripChars, List.reverse_reverse, List.dropWhile_idempotent]

theorem pyStrip_pyRstrip (l : String) : pyStrip (pyRstrip l) = pyStrip l := by
  simp [pyStrip, pyRstrip, stripChars, rstripChars_idem]

theorem dropWhile_append_last {α : Type} (p : α → Bool) (xs : List α) (c : α)
    (hc : p c = false) : (xs ++ [c]).dropWhile p = xs.dropWhile p ++ [c] := by
  induction xs with
  | nil => simp [List.dropWhile, hc]
  | cons x t ih =>
    by_cases hx : p x = true
    · simp [List.dropWhile_cons, hx, ih]
    · simp [List.dropWhile_cons, hx]

theorem rstripChars_cons (c : Char) (t : List Char) (hc : pyIsSpace c = false) :
    rstripChars (c :: t) = c :: rstripChars t := by
  simp [rstripChars, List.reverse_cons, dropWhile_append_last pyIsSpace t.reverse c hc]

theorem stripChars_cons_ne_nil (c : Char) (t : List Char) (hc : pyIsSpace c = false) :
    stripChars (c :: t) ≠ [] := by
  simp [stripChars, rstripChars_cons c t hc, lstripChars, List.dropWhile_cons, hc]

theorem toLower_y_not_space (c : Char) (h : c.toLower = 'y') : pyIsSpace c = false := by
  by_contra hcontra
  have hsp : pyIsSpace c = true := by
    revert hcontra; cases pyIsSpace c <;> simp
  simp only [pyIsSpace, Bool.or_eq_true, beq_iff_eq] at hsp
  rcases hsp with ((((h1 | h1) | h1) | h1) | h1) | h1 <;> subst h1 <;>
    exact absurd h (by decide)

theorem startsWith_yac_head (u : List Char)
    (h : startsWithChars yacChars (u.map Char.toLower) = true) :
    ∃ c t, u = c :: t ∧ c.toLower = 'y' := by
  have hy : yacChars = 'y' :: "ou are carrying".data := rfl
  rw [hy] at h
  cases u with
  | nil => simp [startsWithChars] at h
  | cons c t =>
    simp only [List.map_cons, startsWithChars, Bool.and_eq_true, beq_iff_eq] at h
    exact ⟨c, t, rfl, h.1.symm⟩

/- =====================================================================
   Claim theorems
   ===================================================================== -/

/-- C1: parse_game_state collects description lines until a blank line, a
status line, or an inventory introduction line; a case-insensitive line
starting with the carrying phrase (when it is not also a status line, which
is tested first) terminates description collection and yields the inventory:
the text after the colon split on commas, semicolons, or the word and, each
immediately following non-blank line one further item, trailing periods
stripped from every item; and on the quoted input the result is room Living
Room, description You are in a room., inventory a lamp and a sword. -/
theorem claim_C1_extract_game_state :
    parse_game_state "Living Room\nYou are in a room.\nYou are carrying:\na lamp\na sword\n"
        = { room := some "Living Room", description := "You are in a room.",
            inventory := ["a lamp", "a sword"] }
    ∧ parse_game_state "Cellar\nYou are carrying: a lamp, a rope; a key and a sword..\n"
        = { room := some "Cellar", description := "",
            inventory := ["a lamp", "a rope", "a key", "a sword"] }
    ∧ (∀ (l : String) (rest : List String), pyStrip l = "" →
        gatherDesc (l :: rest) = ([], []))
    ∧ (∀ (l : String) (rest : List String), isStatusLine (pyRstrip l) = true →
        gatherDesc (l :: rest) = ([], []))
    ∧ (∀ (l : String) (rest : List String),
        startsWithChars yacChars (pyLower (pyRstrip l)).data = true →
        isStatusLine (pyRstrip l) = false →
        gatherDesc (l :: rest) = ([], inlineInvItems (pyRstrip l) ++ followingInvItems rest))
    ∧ (∀ rest : List String,
        gatherDesc ("You are carrying:" :: rest)
          = ([], (rest.takeWhile (fun l => pyStrip l != "")).map
              (fun l => rstripDots (pyStrip l)))) := by
  refine ⟨by decide, by decide, ?_, ?_, ?_, ?_⟩
  · intro l rest h
    have hb : pyStrip (pyRstrip l) = "" := by rw [pyStrip_pyRstrip]; exact h
    simp only [gatherDesc, if_pos hb]
  · intro l rest h
    by_cases hb : pyStrip (pyRstrip l) = ""
    · simp only [gatherDesc, if_pos hb]
    · simp only [gatherDesc, if_neg hb, h]
      simp
  · intro l rest hstart hstatus
    have hstart2 : startsWithChars yacChars ((pyRstrip l).data.map Char.toLower) = true := hstart
    obtain ⟨c, t, hu, hy⟩ := startsWith_yac_head (pyRstrip l).data hstart2
    have hc : pyIsSpace c = false := toLower_y_not_space c hy
    have hblank : ¬ pyStrip (pyRstrip l) = "" := by
      intro hcon
      have hdata : stripChars (pyRstrip l).data = [] := congrArg String.data hcon
      rw [hu] at hdata
      exact stripChars_cons_ne_nil c t hc hdata
    have hintro : isInvIntro (pyRstrip l) = true := by
      simp only [isInvIntro, Bool.or_eq_true]
      exact Or.inl (show startsWithChars "you are carrying".data (pyLower (pyRstrip l)).data = true from hstart)
    simp only [gatherDesc, if_neg hblank, hstatus, hintro]
    simp
  · intro rest
    simp only [gatherDesc]
    rw [if_neg (by decide), if_neg (by decide), if_pos (by decide)]
    rw [show inlineInvItems (pyRstrip "You are carrying:") = [] from by decide]
    simp [followingInvItems]

/-- Witness for C1: the universally quantified conjuncts applied at concrete
inputs with their hypotheses discharged by computation. -/
theorem claim_C1_witness :
    gatherDesc ["   ", "desc line"] = ([], [])
    ∧ gatherDesc ["Score: 3 Turns: 4", "desc line"] = ([], [])
    ∧ gatherDesc ["You ARE carrying: a lamp", "a rope."]
        = ([], inlineInvItems (pyRstrip "You ARE carrying: a lamp")
            ++ followingInvItems ["a rope."])
    ∧ gatherDesc ["You are carrying:", "a lamp", "a sword"]
        = ([], (["a lamp", "a sword"].takeWhile (fun l => pyStrip l != "")).map
            (fun l => rstripDots (pyStrip l))) :=
  ⟨claim_C1_extract_game_state.2.2.1 "   " ["desc line"] (by decide),
   claim_C1_extract_game_state.2.2.2.1 "Score: 3 Turns: 4" ["desc line"] (by decide),
   claim_C1_extract_game_state.2.2.2.2.1 "You ARE carrying: a lamp" ["a rope."]
     (by decide) (by decide),
   claim_C1_extract_game_state.2.2.2.2.2 ["a lamp", "a sword"]⟩

/-- C2 counterexample: on an input whose lines are all status lines and where
two lines match the score pattern, parse_banner returns the first status line
as location (the claim requires location to be unset, since no non-blank
non-status line exists) and the score of the LAST matching line (the claim
requires the first, score one). -/
theorem claim_C2_counterexample :
    parse_banner "Score: 1 Turns: 1\nScore: 2 Turns: 2\n"
        = ("Score: 1 Turns: 1", some 2, some 2)
    ∧ (some 2 : Option Nat) ≠ some 1
    ∧ ("Score: 1 Turns: 1" : String) ≠ "" :=
  ⟨by decide, by decide, by decide⟩

/-- C2 amended: parse_banner sets location to the first non-blank line
(stripped, whether or not it is a status line), defaulting to the empty
string when every line is blank; score and turns are taken from the last
line matching the score and turns pattern and are both unset when no line
matches; on the Kitchen input it returns Kitchen, score ten, turns five. -/
theorem claim_C2_extract_banner_amended :
    (∀ text : String,
      parse_banner text =
        ((firstNonBlank (pySplitlines text)).getD "",
          bannerCombine none none (lastOpt (bannerMatches (pySplitlines text)))))
    ∧ parse_banner "Kitchen\nScore: 10 Turns: 5\n" = ("Kitchen", some 10, some 5) := by
  constructor
  · intro text
    rw [parse_banner, parse_banner_loop_spec]
    rfl
  · decide

/-- C3: both extraction functions are total Lean functions (the embedding has
no failure channel, matching that the Python code raises on no input), and
parse_game_state on the empty string returns room unset, empty description
and empty inventory; parse_banner on the empty string returns its defaults. -/
theorem claim_C3_parsers_total_and_empty :
    parse_game_state "" = { room := none, description := "", inventory := [] }
    ∧ parse_banner "" = ("", none, none)
    ∧ (∀ text : String, ∃ g : GameState, parse_game_state text = g)
    ∧ (∀ text : String, ∃ p : String × Option Nat × Option Nat, parse_banner text = p) :=
  ⟨rfl, rfl, fun _ => ⟨_, rfl⟩, fun _ => ⟨_, rfl⟩⟩

/-- C4: after any sequence of appends the history buffer holds at most twelve
entries, and it holds exactly the most recent twelve appended chunks in their
original order (first-in first-out eviction, no reordering, no
deduplication); a window of the most recent n entries has length exactly the
minimum of n and the current length and is a suffix of the buffer (original
order, no mutation). -/
theorem claim_C4_history_buffer :
    (∀ chunks : List String, (chunks.foldl (historyAppend 12) []).length ≤ 12)
    ∧ (∀ chunks : List String, chunks.foldl (historyAppend 12) [] = window 12 chunks)
    ∧ (∀ (n : Nat) (h : List String), (window n h).length = min n h.length)
    ∧ (∀ (n : Nat) (h : List String), ∃ pre, pre ++ window n h = h) := by
  refine ⟨?_, fun chunks => foldl_historyAppend_nil 12 chunks,
    fun n h => window_length n h,
    fun n h => ⟨h.take (h.length - n), List.take_append_drop _ h⟩⟩
  intro chunks
  rw [foldl_historyAppend_nil, window_length]
  omega

/-- C5: the deterministic policy advances its cursor by exactly one per call,
the output of call number i plus one (zero-based index i) is the response at
index i modulo the sequence length of five, and two full cycles reproduce one
cycle twice in the same order. -/
theorem claim_C5_mock_policy_cycles :
    (∀ i : Nat, (mockStep i).2 = i + 1)
    ∧ (∀ n i : Nat, i < n →
        (mockRun 0 n).getD i "" = mock_responses.getD (i % mock_responses.length) "")
    ∧ mockRun 0 (2 * mock_responses.length)
        = mockRun 0 mock_responses.length ++ mockRun 0 mock_responses.length := by
  refine ⟨fun i => rfl, ?_, by decide⟩
  intro n i h
  have h2 := mockRun_getD n 0 i h
  simpa using h2

/-- Witness for C5: the seventh call of the policy returns the response at
index six modulo five, that is the second response. -/
theorem claim_C5_witness :
    (mockRun 0 7).getD 6 "" = mock_responses.getD (6 % mock_responses.length) "" :=
  claim_C5_mock_policy_cycles.2.1 7 6 (by decide)

/-- C10: in the result of parse_banner the score and turns fields are both
set or both unset, for every input text; they are always assigned together
from the same matching line. -/
theorem claim_C10_score_turns_together :
    ∀ text : String,
      ((parse_banner text).2.1).isSome = ((parse_banner text).2.2).isSome := by
  intro text
  rw [parse_banner, parse_banner_loop_spec]
  cases lastOpt (bannerMatches (pySplitlines text)) <;> rfl

/-- C6: when on some turn the decision-source call raises, or its response
has no non-empty line (a None return and an empty string included), the turn
loop breaks at once: the run ends with the decision-source-failure reason and
the only event of that turn is the oracle call itself, so no record of that
turn or of any later turn is emitted and there is no retry. -/
theorem claim_C6_decision_failure_stops_run :
    ∀ (env : Nat → TurnEnv) (rem turn : Nat) (b a : String) (h : List String),
      ((env turn).oracle = OracleOutcome.exn →
        runLoop env (rem + 1) turn ⟨b, AfterVal.text a, h⟩
          = ([Event.oracleCalled turn], RunEnd.decisionSourceFailure))
      ∧ (∀ r : Option String, (env turn).oracle = OracleOutcome.ok r →
          firstNonEmptyLine (r.getD "") = none →
          runLoop env (rem + 1) turn ⟨b, AfterVal.text a, h⟩
            = ([Event.oracleCalled turn], RunEnd.decisionSourceFailure)) := by
  intro env rem turn b a h
  constructor
  · intro hor
    simp [runLoop, recentOfState, hor]
  · intro r hor hline
    by_cases hresp : r.getD "" = ""
    · simp [runLoop, recentOfState, hor, hresp]
    · simp [runLoop, recentOfState, hor, hresp, hline]

/-- Witness for C6: a raising oracle on turn one, and an oracle returning
only blank lines on turn two, each end the run at that turn. -/
theorem claim_C6_witness :
    runLoop envOracleErr 3 1 ⟨"before", AfterVal.text "Score:", []⟩
        = ([Event.oracleCalled 1], RunEnd.decisionSourceFailure)
    ∧ runLoop envNoCmd 3 2 ⟨"before", AfterVal.text "Score:", []⟩
        = ([Event.oracleCalled 2], RunEnd.decisionSourceFailure) :=
  ⟨(claim_C6_decision_failure_stops_run envOracleErr 2 1 "before" "Score:" []).1 rfl,
   (claim_C6_decision_failure_stops_run envNoCmd 2 2 "before" "Score:" []).2
     (some "\n \n") rfl (by decide)⟩

/-- C7 divergence record: a timeout on turn one is logged, but the next turn
crashes immediately with an uncaught TypeError, because pexpect left the
TIMEOUT class in game.after and line 235 concatenates it to a str.  The run
therefore terminates with no turn-two oracle call or records, instead of
continuing with the partial text as the claim states. -/
theorem claim_C7_timeout_crashes_next_turn :
    runLoop envTimeout 3 1 ⟨"West of House ", AfterVal.text "Score:", []⟩
      = ([Event.oracleCalled 1, Event.preRecord 1, Event.timeoutLogged 1],
         RunEnd.typeErrorCrash) := by
  decide

/-- C8 divergence record: when the expect call matches end of stream, pexpect
stores the EOF class in game.after, and line 334 concatenates it to a str:
an uncaught TypeError.  No post record is emitted for the turn and the run
dies in a crash rather than finishing with a stream-closed reason (the break
for the EOF case at line 408 is commented out and its guard can never hold). -/
theorem claim_C8_eof_crashes_without_final_records :
    runLoop envEof 3 1 ⟨"West of House ", AfterVal.text "Score:", []⟩
      = ([Event.oracleCalled 1, Event.preRecord 1], RunEnd.typeErrorCrash) := by
  decide

/-- C9 counterexample: a success response with the parseable body
choices holding a single empty object makes call_llm return the Python None
default of dict.get — it neither raises nor returns a textual completion
field, so the text field is silently defaulted, contradicting the claim. -/
theorem claim_C9_counterexample :
    call_llm (HttpResult.resp 200 (some c9Body)) = Except.ok PyVal.vnull
    ∧ isTextualVal PyVal.vnull = false :=
  ⟨rfl, rfl⟩

/-- C9 amended: call_llm raises on network failure, on status four hundred to
five hundred ninety nine, and on an unparseable body; otherwise it returns
the content field at the choices-zero message path, falling back to the text
field of the first choice for the legacy shape; when the first choice is a
dictionary with neither field, it silently returns the Python None default of
dict.get instead of raising. -/
theorem claim_C9_remote_decide_amended :
    call_llm HttpResult.netFail = Except.error LlmErr.requestsExn
    ∧ (∀ (st : Nat) (body : Option PyVal), 400 ≤ st → st ≤ 599 →
        call_llm (HttpResult.resp st body) = Except.error LlmErr.httpStatusExn)
    ∧ (∀ st : Nat, ¬(400 ≤ st ∧ st ≤ 599) →
        call_llm (HttpResult.resp st none) = Except.error LlmErr.jsonDecodeExn)
    ∧ (∀ (v : PyVal) (extra : List PyVal) (morek : List (String × PyVal)),
        call_llm (HttpResult.resp 200 (some (PyVal.vdict [("choices",
            PyVal.vlist (PyVal.vdict [("message", PyVal.vdict (("content", v) :: morek))]
              :: extra))])))
          = Except.ok v)
    ∧ (∀ (v : PyVal) (extra : List PyVal),
        call_llm (HttpResult.resp 200 (some (PyVal.vdict [("choices",
            PyVal.vlist (PyVal.vdict [("text", v)] :: extra))])))
          = Except.ok v)
    ∧ call_llm (HttpResult.resp 200 (some c9Body)) = Except.ok PyVal.vnull := by
  refine ⟨rfl, ?_, ?_, fun v extra morek => rfl, fun v extra => rfl, rfl⟩
  · intro st body h1 h2
    simp only [call_llm, if_pos (And.intro h1 h2)]
  · intro st hneg
    simp only [call_llm, if_neg hneg]

/-- Witness for C9: the hypothesis-bearing conjuncts applied at status four
hundred four with a parseable body, and at status two hundred with an
unparseable body. -/
theorem claim_C9_witness :
    call_llm (HttpResult.resp 404 (some c9Body)) = Except.error LlmErr.httpStatusExn
    ∧ call_llm (HttpResult.resp 200 none) = Except.error LlmErr.jsonDecodeExn :=
  ⟨claim_C9_remote_decide_amended.2.1 404 (some c9Body) (by decide) (by decide),
   claim_C9_remote_decide_amended.2.2.1 200 (by decide)⟩
